import Mathlib

/-!
Verification of the SportMatchMaker core: the ranking engine
(`server/storage.ts`, `MemStorage.calculateRankings` / `updatePairStats`)
and the ranked pairing allocator (`POST /api/pairings/generate`).
TypeScript numbers holding point totals are modelled as `Int` (they can go
negative before clamping); ids, scores and counters are `Nat`.
JavaScript `Map`s are modelled as association lists in insertion order
(`Map.set` replaces in place or appends, `Map.values()` iterates in
insertion order).  Authentication-only fields of `Player` (role, password,
phone, ...) are irrelevant to every operation verified here and omitted.
-/

namespace SportMatchMaker

open scoped List

/-- A player (shared/schema.ts `Player`): numeric id, display name, and the
"selected for next round" flag. -/
structure Player where
  id : Nat
  name : String
  selected : Bool
deriving DecidableEq

/-- A court (shared/schema.ts `Court`): numeric id and name. -/
structure Court where
  id : Nat
  name : String
deriving DecidableEq

/-- A pair of players (shared/schema.ts `pairSchema`). -/
structure Pair where
  player1 : Player
  player2 : Player
deriving DecidableEq

/-- The `winner` field of a match result: the literal values
`"pair1"` / `"pair2"`. -/
inductive Winner where
  | pair1
  | pair2
deriving DecidableEq, BEq

/-- A match result (shared/schema.ts `matchResultSchema`). -/
structure MatchResult where
  id : Nat
  pairingId : Nat
  gameDate : String
  setNumber : Nat
  pair1Score : Nat
  pair2Score : Nat
  winner : Winner
  completed : Bool
  pair1 : Pair
  pair2 : Pair
  courtId : Nat
  courtName : String
deriving DecidableEq

/-- A per-player ranking row (shared/schema.ts `playerRankingSchema`). -/
structure PlayerRanking where
  playerId : Nat
  playerName : String
  gamesPlayed : Nat
  gamesWon : Nat
  setsPlayed : Nat
  setsWon : Nat
  points : Int
deriving DecidableEq

/-- Lookup in a JS `Map` modelled as an association list. -/
def alistGet (k : Nat) : List (Nat × α) → Option α
  | [] => none
  | (k', v) :: rest => if k' = k then some v else alistGet k rest

/-- `Map.set`: replace the value in place when the key exists, otherwise
append at the end (JS maps keep insertion order). -/
def alistSet (k : Nat) (v : α) : List (Nat × α) → List (Nat × α)
  | [] => [(k, v)]
  | (k', v') :: rest =>
      if k' = k then (k, v) :: rest else (k', v') :: alistSet k v rest

/-- storage.ts 328-331: a record whose score is exactly 6-0 or 0-6. -/
def isBlowout (r : MatchResult) : Bool :=
  (r.pair1Score == 6 && r.pair2Score == 0) ||
  (r.pair1Score == 0 && r.pair2Score == 6)

/-- storage.ts 327-331: the blowout records, filtered from the *whole*
stored result collection (note: no `completed` filter in the source). -/
def specialScoreResults (results : List MatchResult) : List MatchResult :=
  results.filter isBlowout

/-- Whether the player with id `pid` is one of the two members of `p`. -/
def inPair (pid : Nat) (p : Pair) : Bool :=
  p.player1.id == pid || p.player2.id == pid

/-- storage.ts 350-353: the player participated in `r` on the winning side. -/
def wonBlowout (pid : Nat) (r : MatchResult) : Bool :=
  (r.winner == Winner.pair1 && inPair pid r.pair1) ||
  (r.winner == Winner.pair2 && inPair pid r.pair2)

/-- storage.ts 364-367: the player participated in `r` on the losing side. -/
def lostBlowout (pid : Nat) (r : MatchResult) : Bool :=
  (r.winner == Winner.pair2 && inPair pid r.pair1) ||
  (r.winner == Winner.pair1 && inPair pid r.pair2)

/-- storage.ts 349-357: the `for` loop adding 3 points per blowout record
the player's pair won. -/
def bonusLoop (special : List MatchResult) (pid : Nat) (pts : Int) : Int :=
  special.foldl (fun acc r => if wonBlowout pid r then acc + 3 else acc) pts

/-- storage.ts 363-371: the `for` loop subtracting 3 points per blowout
record the player's pair lost. -/
def penaltyLoop (special : List MatchResult) (pid : Nat) (pts : Int) : Int :=
  special.foldl (fun acc r => if lostBlowout pid r then acc - 3 else acc) pts

/-- One half of storage.ts `updatePairStats` (the `ranking1` block,
lines 333-378; the `ranking2` block is identical with the other id):
update one player's ranking row for one processed result. -/
def updateOnePlayer (special : List MatchResult) (pid : Nat)
    (isWinner : Bool) (setCount : Nat)
    (rankings : List (Nat × PlayerRanking)) : List (Nat × PlayerRanking) :=
  match alistGet pid rankings with
  | none => rankings
  | some r0 =>
      let r1 : PlayerRanking :=
        { r0 with
          gamesPlayed := r0.gamesPlayed + 1
          setsPlayed := r0.setsPlayed + setCount
          points := r0.points + 1 }
      let r2 : PlayerRanking :=
        if isWinner then
          let rw : PlayerRanking :=
            { r1 with
              gamesWon := r1.gamesWon + 1
              setsWon := r1.setsWon + setCount
              points := r1.points + setCount }
          { rw with points := bonusLoop special pid rw.points }
        else
          let rl : PlayerRanking := { r1 with points := r1.points - setCount }
          { rl with points := penaltyLoop special pid rl.points }
      let r3 : PlayerRanking := { r2 with points := max 0 r2.points }
      alistSet pid r3 rankings

/-- storage.ts `updatePairStats` (lines 322-426): update both members of a
pair.  In the source both rows are fetched up front and mutated in place;
when the two ids coincide the two fetches alias the same object, so the
sequential composition below is the faithful rendering in either case. -/
def updatePairStats (special : List MatchResult) (player1Id player2Id : Nat)
    (isWinner : Bool) (setCount : Nat)
    (rankings : List (Nat × PlayerRanking)) : List (Nat × PlayerRanking) :=
  updateOnePlayer special player2Id isWinner setCount
    (updateOnePlayer special player1Id isWinner setCount rankings)

/-- storage.ts 302-317: the body of the `for (const result of results)`
loop in `calculateRankings`. -/
def processResult (special : List MatchResult)
    (rankings : List (Nat × PlayerRanking)) (result : MatchResult) :
    List (Nat × PlayerRanking) :=
  if !result.completed then rankings
  else
    let player1Id := result.pair1.player1.id
    let player2Id := result.pair1.player2.id
    let player3Id := result.pair2.player1.id
    let player4Id := result.pair2.player2.id
    match result.winner with
    | Winner.pair1 =>
        updatePairStats special player3Id player4Id false result.setNumber
          (updatePairStats special player1Id player2Id true result.setNumber
            rankings)
    | Winner.pair2 =>
        updatePairStats special player3Id player4Id true result.setNumber
          (updatePairStats special player1Id player2Id false result.setNumber
            rankings)

/-- storage.ts 285-297: the zero-valued initial ranking rows, one per
roster player, inserted in roster order. -/
def initRankings (players : List Player) : List (Nat × PlayerRanking) :=
  players.foldl
    (fun m p =>
      alistSet p.id
        { playerId := p.id, playerName := p.name, gamesPlayed := 0,
          gamesWon := 0, setsPlayed := 0, setsWon := 0, points := 0 } m)
    []

/-- storage.ts `calculateRankings` (lines 281-319) as a pure function of
the roster and the stored results, returning the rebuilt
`playerRankings` map. -/
def calcRankings (players : List Player) (results : List MatchResult) :
    List (Nat × PlayerRanking) :=
  results.foldl (processResult (specialScoreResults results))
    (initRankings players)

/-- The `MemStorage` in-memory store (storage.ts 60-105), restricted to the
fields the verified operations touch. -/
structure StorageState where
  players : List Player
  courts : List Court
  matchResults : List (Nat × MatchResult)
  playerRankings : List (Nat × PlayerRanking)
  resultIdCounter : Nat
deriving DecidableEq

/-- The effect of the `calculateRankings` method on the store: rebuild the
`playerRankings` map from the roster and the stored results. -/
def calculateRankingsState (s : StorageState) : StorageState :=
  { s with
    playerRankings := calcRankings s.players (s.matchResults.map (·.2)) }

/-- storage.ts `saveMatchResult` (lines 197-206): allocate a fresh id,
store the record under it, then recompute all rankings. -/
def saveMatchResult (result : MatchResult) (s : StorageState) :
    MatchResult × StorageState :=
  let id := s.resultIdCounter
  let newResult : MatchResult := { result with id := id }
  let s1 : StorageState :=
    { s with
      matchResults := alistSet id newResult s.matchResults
      resultIdCounter := id + 1 }
  (newResult, calculateRankingsState s1)

/-- A `Partial<MatchResult>` patch: any subset of fields may be present. -/
structure MatchResultPatch where
  id : Option Nat := none
  pairingId : Option Nat := none
  gameDate : Option String := none
  setNumber : Option Nat := none
  pair1Score : Option Nat := none
  pair2Score : Option Nat := none
  winner : Option Winner := none
  completed : Option Bool := none
  pair1 : Option Pair := none
  pair2 : Option Pair := none
  courtId : Option Nat := none
  courtName : Option String := none
deriving DecidableEq

/-- The spread `{ ...existingResult, ...result, id }` of storage.ts 212:
patch fields override, and the trailing `id` property wins. -/
def applyPatch (e : MatchResult) (p : MatchResultPatch) (id : Nat) :
    MatchResult :=
  { id := id
    pairingId := p.pairingId.getD e.pairingId
    gameDate := p.gameDate.getD e.gameDate
    setNumber := p.setNumber.getD e.setNumber
    pair1Score := p.pair1Score.getD e.pair1Score
    pair2Score := p.pair2Score.getD e.pair2Score
    winner := p.winner.getD e.winner
    completed := p.completed.getD e.completed
    pair1 := p.pair1.getD e.pair1
    pair2 := p.pair2.getD e.pair2
    courtId := p.courtId.getD e.courtId
    courtName := p.courtName.getD e.courtName }

/-- storage.ts `updateMatchResult` (lines 208-219): merge the patch into
the existing record (keeping its id), store it back, recompute rankings. -/
def updateMatchResult (id : Nat) (patch : MatchResultPatch)
    (s : StorageState) : Option MatchResult × StorageState :=
  match alistGet id s.matchResults with
  | none => (none, s)
  | some existing =>
      let updated := applyPatch existing patch id
      let s1 : StorageState :=
        { s with matchResults := alistSet id updated s.matchResults }
      (some updated, calculateRankingsState s1)

/-- Stable insertion (descending by `key`) used to model the JS stable
`Array.prototype.sort` with comparator `keyB - keyA`: an element is placed
before the first element whose key is not larger, so equal keys keep their
original relative order. -/
def insertDescBy (key : α → Int) (a : α) : List α → List α
  | [] => [a]
  | x :: xs =>
      if key a < key x then x :: insertDescBy key a xs else a :: x :: xs

/-- Stable sort, descending by `key` (model of `sort((a, b) => kB - kA)`). -/
def sortDescBy (key : α → Int) (l : List α) : List α :=
  l.foldr (insertDescBy key) []

/-- storage.ts `getPlayerRankings` (lines 222-225): ranking rows sorted by
descending points. -/
def getPlayerRankingsOf (s : StorageState) : List PlayerRanking :=
  sortDescBy (·.points) (s.playerRankings.map (·.2))

/-- routes 361-364 (`getPlayerRanking`): resolve a player's points from
the rankings list, defaulting to 0 when the player has no row. -/
def getPlayerRankingPoints (rankings : List PlayerRanking) (pid : Nat) :
    Int :=
  match rankings.find? (fun r => r.playerId == pid) with
  | some r => r.points
  | none => 0

/-- routes 379-387: the snake-seeding loop
`for i < length / 2: push (sorted[i], sorted[length - 1 - i])`.
`zip l l.reverse` pairs index `i` with index `length - 1 - i`, and the
loop runs while `i < length / 2` over the reals, i.e. for
`i < (length + 1) / 2` indices. -/
def snakePairs (l : List α) : List (α × α) :=
  (l.zip l.reverse).take ((l.length + 1) / 2)

/-- routes 375-387: the `balancedPairs` array of `{player1, player2}`
records built by the snake-seeding loop. -/
def balancedPairs (sortedPlayers : List Player) : List Pair :=
  (snakePairs sortedPlayers).map (fun q => { player1 := q.1, player2 := q.2 })

/-- One element of the allocator's output (shared/schema.ts
`courtPairingSchema`). -/
structure CourtPairing where
  courtId : Nat
  courtName : String
  pair1 : Pair
  pair2 : Pair
  sets : Nat
  gameDate : String
deriving DecidableEq

/-- routes 398-417: the court-assignment loop.  Step `i` (while
`i < courts.length` and `i * 2 < M`) takes pairs `i` and `M - 1 - i` and
breaks when the two indices would collide, i.e. it performs
`min courts.length (M / 2)` steps; `courtPairing.sets` is
`Number(sets) || 3` (a falsy `sets` becomes 3). -/
def assignCourts (selectedCourts : List Court) (sortedPairs : List Pair)
    (sets : Nat) (gameDate : String) : List CourtPairing :=
  ((selectedCourts.zip (sortedPairs.zip sortedPairs.reverse)).take
      (sortedPairs.length / 2)).map
    (fun x =>
      { courtId := x.1.id
        courtName := x.1.name
        pair1 := x.2.1
        pair2 := x.2.2
        sets := if sets == 0 then 3 else sets
        gameDate := gameDate })

/-- routes 360-417: the ranked allocation pipeline after validation —
sort players by descending resolved points (stable), snake-pair them,
sort the pairs by descending combined points (stable), and assign two
pairs per court. -/
def allocateCore (players : List Player) (selectedCourts : List Court)
    (rankings : List PlayerRanking) (sets : Nat) (gameDate : String) :
    List CourtPairing :=
  let sortedPlayers :=
    sortDescBy (fun p => getPlayerRankingPoints rankings p.id) players
  let sortedPairs :=
    sortDescBy
      (fun pr =>
        getPlayerRankingPoints rankings pr.player1.id +
          getPlayerRankingPoints rankings pr.player2.id)
      (balancedPairs sortedPlayers)
  assignCourts selectedCourts sortedPairs sets gameDate

/-- routes 320: validation message for fewer than 4 players. -/
def msgInsufficientPlayers : String :=
  "Se necesitan al menos 4 jugadores para generar parejas"

/-- routes 326: validation message for a player count that is not a
multiple of 4. -/
def msgNotMultipleOf4 (n : Nat) : String :=
  "Se necesita un múltiplo de 4 jugadores para emparejamientos equitativos (actualmente "
    ++ toString n ++ ")"

/-- routes 349: validation message for insufficient courts. -/
def msgInsufficientCourts (avail playerCount required : Nat) : String :=
  "No hay suficientes canchas (" ++ toString avail
    ++ ") para los jugadores seleccionados (" ++ toString playerCount
    ++ "). Se necesitan " ++ toString required ++ " canchas."

/-- routes 317-421: the validations and ranked allocation of
`POST /api/pairings/generate`, as a function of the eligible players, the
available courts (after the `selectedCourtIds` filter) and the current
rankings.  `gameDate = none` models a missing/empty request field, which
the route replaces by today's date (passed here as `today`). -/
def generatePairings (players : List Player) (availableCourts : List Court)
    (rankings : List PlayerRanking) (sets : Nat) (gameDate : Option String)
    (today : String) : Except String (List CourtPairing) :=
  if players.length < 4 then Except.error msgInsufficientPlayers
  else if players.length % 4 ≠ 0 then
    Except.error (msgNotMultipleOf4 players.length)
  else
    let requiredCourts := players.length / 4
    if availableCourts.length < requiredCourts then
      Except.error
        (msgInsufficientCourts availableCourts.length players.length
          requiredCourts)
    else
      Except.ok
        (allocateCore players (availableCourts.take requiredCourts) rankings
          sets (gameDate.getD today))

/-- routes 313-315: the eligible players are the selected ones when any
player is selected, otherwise the whole roster. -/
def eligiblePlayers (s : StorageState) : List Player :=
  let selectedPlayers := s.players.filter (·.selected)
  if selectedPlayers.length > 0 then selectedPlayers else s.players

/-- routes 336-344: the available courts are those matching
`selectedCourtIds` when that list is nonempty, otherwise all courts. -/
def availableCourtsOf (s : StorageState) (selectedCourtIds : List Nat) :
    List Court :=
  if selectedCourtIds.length > 0 then
    s.courts.filter (fun c => selectedCourtIds.contains c.id)
  else s.courts

/-- routes 308-431: the whole `POST /api/pairings/generate` handler as a
state transformer.  On a validation failure the store is returned
untouched (the handler returns before its `calculateRankings()` call,
the only mutation on this path); on success the rankings have been
recomputed and the allocator runs on them. -/
def routeGeneratePairings (s : StorageState) (selectedCourtIds : List Nat)
    (sets : Nat) (gameDate : Option String) (today : String) :
    Except String (List CourtPairing) × StorageState :=
  let players := eligiblePlayers s
  let availableCourts := availableCourtsOf s selectedCourtIds
  let s' := calculateRankingsState s
  match generatePairings players availableCourts (getPlayerRankingsOf s')
      sets gameDate today with
  | Except.error msg => (Except.error msg, s)
  | Except.ok pairings => (Except.ok pairings, s')

/-- part_005 66-69 (`determineWinner`): the pair with the larger score;
note the bare `else` maps an equal score to `"pair2"`. -/
def determineWinner (pair1Score pair2Score : Nat) : Winner :=
  if pair1Score > pair2Score then Winner.pair1 else Winner.pair2

/-- part_005 71-77 (`handleScoreChange`): on a tie the stored winner is
left unchanged, otherwise it is recomputed from the scores. -/
def handleScoreChange (pair1Score pair2Score : Nat) (current : Winner) :
    Winner :=
  if pair1Score == pair2Score then current
  else determineWinner pair1Score pair2Score

/-- part_005 55-63: the result form's initial `winner` value. -/
def defaultWinner : Winner := Winner.pair1

/-! ### The per-player update as claim C2 words it

Claim C2 asserts that the blowout bonus (+3 per blowout record the
player's pair won) *and* the blowout penalty (-3 per blowout record the
player's pair lost) are both applied on every processed result,
regardless of whether the player's pair won or lost the result being
processed.  The definition below follows that wording; the source
(storage.ts 341-372) instead runs the bonus loop only in the winner
branch and the penalty loop only in the loser branch. -/

/-- The per-player update with both blowout passes applied
unconditionally, as claim C2 describes it. -/
def updateOnePlayerBothPasses (special : List MatchResult) (pid : Nat)
    (isWinner : Bool) (setCount : Nat)
    (rankings : List (Nat × PlayerRanking)) : List (Nat × PlayerRanking) :=
  match alistGet pid rankings with
  | none => rankings
  | some r0 =>
      let r1 : PlayerRanking :=
        { r0 with
          gamesPlayed := r0.gamesPlayed + 1
          setsPlayed := r0.setsPlayed + setCount
          points := r0.points + 1 }
      let r2 : PlayerRanking :=
        if isWinner then
          { r1 with
            gamesWon := r1.gamesWon + 1
            setsWon := r1.setsWon + setCount
            points := r1.points + setCount }
        else { r1 with points := r1.points - setCount }
      let r3 : PlayerRanking :=
        { r2 with
          points := penaltyLoop special pid (bonusLoop special pid r2.points) }
      let r4 : PlayerRanking := { r3 with points := max 0 r3.points }
      alistSet pid r4 rankings

/-- `updatePairStats` built on the claim-C2 reading of the update. -/
def updatePairStatsBothPasses (special : List MatchResult)
    (player1Id player2Id : Nat) (isWinner : Bool) (setCount : Nat)
    (rankings : List (Nat × PlayerRanking)) : List (Nat × PlayerRanking) :=
  updateOnePlayerBothPasses special player2Id isWinner setCount
    (updateOnePlayerBothPasses special player1Id isWinner setCount rankings)

/-- The per-result processing built on the claim-C2 reading. -/
def processResultBothPasses (special : List MatchResult)
    (rankings : List (Nat × PlayerRanking)) (result : MatchResult) :
    List (Nat × PlayerRanking) :=
  if !result.completed then rankings
  else
    match result.winner with
    | Winner.pair1 =>
        updatePairStatsBothPasses special result.pair2.player1.id
          result.pair2.player2.id false result.setNumber
          (updatePairStatsBothPasses special result.pair1.player1.id
            result.pair1.player2.id true result.setNumber rankings)
    | Winner.pair2 =>
        updatePairStatsBothPasses special result.pair2.player1.id
          result.pair2.player2.id true result.setNumber
          (updatePairStatsBothPasses special result.pair1.player1.id
            result.pair1.player2.id false result.setNumber rankings)

/-- The ranking recomputation built on the claim-C2 reading. -/
def calcRankingsBothPasses (players : List Player)
    (results : List MatchResult) : List (Nat × PlayerRanking) :=
  results.foldl (processResultBothPasses (specialScoreResults results))
    (initRankings players)

/-! ### Concrete fixtures used by the closed theorems and witnesses -/

/-- Fixture player `i`. -/
def pl (i : Nat) : Player := ⟨i, "P" ++ toString i, false⟩

/-- Fixture pair of players 1 and 2. -/
def pairA : Pair := ⟨pl 1, pl 2⟩

/-- Fixture pair of players 3 and 4. -/
def pairB : Pair := ⟨pl 3, pl 4⟩

/-- A four-player roster. -/
def rosterFour : List Player := [pl 1, pl 2, pl 3, pl 4]

/-- Fixture result: `pairA` vs `pairB` on court 1. -/
def mkRes (id s1 s2 : Nat) (w : Winner) (comp : Bool) : MatchResult :=
  ⟨id, 1, "2026-01-10", 1, s1, s2, w, comp, pairA, pairB, 1, "Lala"⟩

/-- C1 fixture: the single completed 6-0 win of `pairA`, `setNumber = 1`. -/
def resBlowoutWin : MatchResult := mkRes 1 6 0 Winner.pair1 true

/-- C2 fixture: a completed 0-6 blowout loss of `pairA`. -/
def resBlowoutLoss : MatchResult := mkRes 1 0 6 Winner.pair2 true

/-- C2/C3 fixture: a completed ordinary 6-4 win of `pairA`. -/
def resPlainWin : MatchResult := mkRes 2 6 4 Winner.pair1 true

/-- C3 fixture: a 6-0 record whose `completed` flag is false. -/
def resIncompleteBlowout : MatchResult := mkRes 3 6 0 Winner.pair1 false

/-- C6 fixture: an eight-player roster. -/
def rosterEight : List Player :=
  [pl 1, pl 2, pl 3, pl 4, pl 5, pl 6, pl 7, pl 8]

/-- C6 fixture: ranking rows giving players 1..8 the points
[100, 90, 80, 70, 60, 50, 40, 30]. -/
def rankingsEight : List PlayerRanking :=
  (List.range 8).map
    (fun i =>
      { playerId := i + 1, playerName := "P" ++ toString (i + 1),
        gamesPlayed := 0, gamesWon := 0, setsPlayed := 0, setsWon := 0,
        points := (100 : Int) - 10 * i })

/-- C6 fixture: two courts. -/
def courtsTwo : List Court := [⟨1, "Lala"⟩, ⟨2, "AR"⟩]

/-- C7 fixture: a store with three players and one court. -/
def storeThreePlayers : StorageState :=
  ⟨[pl 1, pl 2, pl 3], [⟨1, "Lala"⟩], [], [], 1⟩

/-- C7 fixture: a store with five players and one court. -/
def storeFivePlayers : StorageState :=
  ⟨[pl 1, pl 2, pl 3, pl 4, pl 5], [⟨1, "Lala"⟩], [], [], 1⟩

/-- C7 fixture: a store with four players and no courts. -/
def storeFourPlayersNoCourts : StorageState :=
  ⟨rosterFour, [], [], [], 1⟩

/-- C10 fixture: a store holding one stored result. -/
def storeOneResult : StorageState :=
  ⟨rosterFour, [⟨1, "Lala"⟩], [(1, resPlainWin)], [], 2⟩

/-- C10 fixture: a patch marking a result completed with a 6-0 score. -/
def patchComplete : MatchResultPatch :=
  { pair1Score := some 6, pair2Score := some 0, completed := some true }

/-! ### Flattening helpers for the coverage statements -/

/-- The two components of every tuple, in order. -/
def pairElems (l : List (α × α)) : List α :=
  l.flatMap (fun q => [q.1, q.2])

/-- The two players of a pair, in order. -/
def pairPlayers (pr : Pair) : List Player :=
  [pr.player1, pr.player2]

/-- The four participants of a court pairing, in order. -/
def courtPairingPlayers (cp : CourtPairing) : List Player :=
  [cp.pair1.player1, cp.pair1.player2, cp.pair2.player1, cp.pair2.player2]

/-- All participants across a generated pairing list. -/
def pairingsPlayers (ps : List CourtPairing) : List Player :=
  ps.flatMap courtPairingPlayers

/-! ## Helper lemmas -/

theorem alistGet_alistSet_self (k : Nat) (v : α) (m : List (Nat × α)) :
    alistGet k (alistSet k v m) = some v := by
  induction m with
  | nil => simp [alistSet, alistGet]
  | cons hd t ih =>
      obtain ⟨k', v'⟩ := hd
      by_cases hk : k' = k
      · simp [alistSet, hk, alistGet]
      · simp [alistSet, hk, alistGet, ih]

theorem bonusLoop_eq (special : List MatchResult) (pid : Nat) (pts : Int) :
    bonusLoop special pid pts =
      pts + 3 * (special.countP (wonBlowout pid) : Int) := by
  induction special generalizing pts with
  | nil => simp [bonusLoop]
  | cons r rest ih =>
      show bonusLoop rest pid (if wonBlowout pid r then pts + 3 else pts) = _
      rw [ih, List.countP_cons]
      by_cases h : wonBlowout pid r = true
      · rw [if_pos h, if_pos h]
        push_cast
        ring
      · rw [if_neg h, if_neg h]
        push_cast
        ring

theorem penaltyLoop_eq (special : List MatchResult) (pid : Nat) (pts : Int) :
    penaltyLoop special pid pts =
      pts - 3 * (special.countP (lostBlowout pid) : Int) := by
  induction special generalizing pts with
  | nil => simp [penaltyLoop]
  | cons r rest ih =>
      show penaltyLoop rest pid (if lostBlowout pid r then pts - 3 else pts) = _
      rw [ih, List.countP_cons]
      by_cases h : lostBlowout pid r = true
      · rw [if_pos h, if_pos h]
        push_cast
        ring
      · rw [if_neg h, if_neg h]
        push_cast
        ring

/-! ## Claim theorems -/

/-- C1: for the four-player roster and exactly one completed `MatchResult`
with `winner = pair1`, `pair1Score = 6`, `pair2Score = 0` and
`setNumber = 1`, recomputing rankings yields 5 points for each pair1
player (1 participation + 1 set + 3 blowout bonus) and 0 points for each
pair2 player (1 - 1 - 3, clamped at zero). -/
theorem c1_single_blowout_result_points :
    (calcRankings rosterFour [resBlowoutWin]).map
        (fun e => (e.1, e.2.points)) =
      [(1, 5), (2, 5), (3, 0), (4, 0)] := by
  decide

/-- C2 counterexample: the claim says the +3 and -3 blowout adjustments are
applied regardless of whether the player's pair won or lost the result
being processed.  With a completed 0-6 blowout loss of players 1/2
followed by an ordinary completed 6-4 win of players 1/2, the source
engine gives player 1 a final total of 2 points (the -3 penalty for the
past blowout loss is *not* applied while processing the won result),
while the engine written from the claim's wording gives 0. -/
theorem c2_blowout_pass_not_unconditional_cex :
    (alistGet 1 (calcRankings rosterFour [resBlowoutLoss, resPlainWin])).map
        (fun r => r.points) = some 2 ∧
    (alistGet 1
          (calcRankingsBothPasses rosterFour
            [resBlowoutLoss, resPlainWin])).map
        (fun r => r.points) = some 0 ∧
    lostBlowout 1 resBlowoutLoss = true ∧ resPlainWin.completed = true := by
  decide

/-- C2 (amended): on a processed result the per-player update adds
`3 × (number of blowout records the player's pair won)` *only when the
player's pair won the result being processed*, and subtracts
`3 × (number of blowout records the player's pair lost)` *only when it
lost it*; the remaining contributions are 1 participation point plus
`setNumber` points won or lost. -/
theorem c2_blowout_pass_formula (special : List MatchResult) (pid : Nat)
    (isWinner : Bool) (setCount : Nat)
    (rankings : List (Nat × PlayerRanking)) (r0 : PlayerRanking)
    (h : alistGet pid rankings = some r0) :
    alistGet pid (updateOnePlayer special pid isWinner setCount rankings) =
      some
        { playerId := r0.playerId
          playerName := r0.playerName
          gamesPlayed := r0.gamesPlayed + 1
          gamesWon := r0.gamesWon + (if isWinner then 1 else 0)
          setsPlayed := r0.setsPlayed + setCount
          setsWon := r0.setsWon + (if isWinner then setCount else 0)
          points :=
            max 0
              (if isWinner then
                r0.points + 1 + setCount +
                  3 * (special.countP (wonBlowout pid) : Int)
              else
                r0.points + 1 - setCount -
                  3 * (special.countP (lostBlowout pid) : Int)) } := by
  unfold updateOnePlayer
  rw [h]
  cases isWinner with
  | true =>
      simp only [if_true, alistGet_alistSet_self, bonusLoop_eq]
  | false =>
      simp only [Bool.false_eq_true, if_false, alistGet_alistSet_self,
        penaltyLoop_eq, Nat.add_zero, Int.add_zero]

/-- Witness for C2 (amended) at a concrete input. -/
theorem c2_blowout_pass_formula_witness :
    alistGet 1
        (updateOnePlayer [resBlowoutWin] 1 true 1
          (initRankings rosterFour)) =
      some
        { playerId := 1, playerName := "P1", gamesPlayed := 1, gamesWon := 1,
          setsPlayed := 1, setsWon := 1, points := 5 } := by
  have h :=
    c2_blowout_pass_formula [resBlowoutWin] 1 true 1
      (initRankings rosterFour)
      { playerId := 1, playerName := "P1", gamesPlayed := 0, gamesWon := 0,
        setsPlayed := 0, setsWon := 0, points := 0 }
      (by decide)
  simpa using h

/-- C3 counterexample: the claim says results with `completed = false`
contribute nothing to any player's statistics, including via the blowout
pass.  Adding an *incomplete* 6-0 record next to one completed ordinary
win changes player 1's points from 2 to 5: the blowout scan
(storage.ts 327-331) does not filter on `completed`. -/
theorem c3_incomplete_result_affects_points_cex :
    resIncompleteBlowout.completed = false ∧
    (alistGet 1
          (calcRankings rosterFour [resPlainWin, resIncompleteBlowout])).map
        (fun r => r.points) = some 5 ∧
    (alistGet 1 (calcRankings rosterFour [resPlainWin])).map
        (fun r => r.points) = some 2 := by
  decide

/-- C3 (amended): results with `completed = false` are skipped by the
per-result aggregation loop (no games/sets/participation/win-loss
contribution), but the blowout bonus/penalty pass scans the *whole*
stored result collection, incomplete records included — so recomputation
equals folding only the completed results while the blowout list is
still drawn from all results. -/
theorem c3_incomplete_skipped_main_loop_only (players : List Player)
    (results : List MatchResult) :
    calcRankings players results =
      (results.filter (fun r => r.completed)).foldl
        (processResult (specialScoreResults results))
        (initRankings players) := by
  unfold calcRankings
  generalize initRankings players = acc
  generalize specialScoreResults results = special
  induction results generalizing acc with
  | nil => rfl
  | cons r rest ih =>
      by_cases h : r.completed
      · simp only [List.foldl_cons, List.filter_cons, h, if_true, ih]
      · have hskip : processResult special acc r = acc := by
          simp [processResult, h]
        simp only [List.foldl_cons, List.filter_cons, h, hskip, ih]
        simp [h]

/-- C6: for the fixed input of 8 players with points
[100, 90, 80, 70, 60, 50, 40, 30] and 2 courts, ranked generation
produces exactly the snake pairs (100,30), (90,40), (80,50), (70,60),
all with combined sum 130, and the court assignment puts the extreme
pairs together: court 1 hosts (100,30) with (70,60) and court 2 hosts
(90,40) with (80,50). -/
theorem c6_fixed_eight_player_allocation :
    (balancedPairs
        (sortDescBy (fun p => getPlayerRankingPoints rankingsEight p.id)
          rosterEight) =
      [⟨pl 1, pl 8⟩, ⟨pl 2, pl 7⟩, ⟨pl 3, pl 6⟩, ⟨pl 4, pl 5⟩]) ∧
    ((balancedPairs
          (sortDescBy (fun p => getPlayerRankingPoints rankingsEight p.id)
            rosterEight)).map
        (fun pr =>
          getPlayerRankingPoints rankingsEight pr.player1.id +
            getPlayerRankingPoints rankingsEight pr.player2.id) =
      [130, 130, 130, 130]) ∧
    generatePairings rosterEight courtsTwo rankingsEight 1
        (some "2026-01-10") "2026-01-10" =
      Except.ok
        [{ courtId := 1, courtName := "Lala", pair1 := ⟨pl 1, pl 8⟩,
           pair2 := ⟨pl 4, pl 5⟩, sets := 1, gameDate := "2026-01-10" },
         { courtId := 2, courtName := "AR", pair1 := ⟨pl 2, pl 7⟩,
           pair2 := ⟨pl 3, pl 6⟩, sets := 1, gameDate := "2026-01-10" }] := by
  refine ⟨by decide, by decide, ?_⟩
  rfl

/-- C9: when the winner is derived from the scores on the result form,
a strictly higher score wins, and on a tie the derivation leaves the
stored value alone, so starting from the form's default the winner is
`pair1`. -/
theorem c9_winner_derivation (p1 p2 : Nat) (w : Winner) :
    (p2 < p1 → handleScoreChange p1 p2 w = Winner.pair1) ∧
    (p1 < p2 → handleScoreChange p1 p2 w = Winner.pair2) ∧
    handleScoreChange p1 p1 defaultWinner = Winner.pair1 := by
  refine ⟨?_, ?_, ?_⟩
  · intro h
    unfold handleScoreChange determineWinner
    have hne : (p1 == p2) = false := by
      simp only [beq_eq_false_iff_ne, ne_eq]
      omega
    rw [hne]
    simp only [Bool.false_eq_true, if_false]
    rw [if_pos h]
  · intro h
    unfold handleScoreChange determineWinner
    have hne : (p1 == p2) = false := by
      simp only [beq_eq_false_iff_ne, ne_eq]
      omega
    rw [hne]
    simp only [Bool.false_eq_true, if_false]
    rw [if_neg (by omega)]
  · simp [handleScoreChange, defaultWinner]

theorem mem_alistSet (k : Nat) (v : α) (m : List (Nat × α)) (x : Nat × α)
    (hx : x ∈ alistSet k v m) : x ∈ m ∨ x = (k, v) := by
  induction m with
  | nil =>
      right
      simpa [alistSet] using hx
  | cons hd t ih =>
      obtain ⟨k', v'⟩ := hd
      by_cases hk : k' = k
      · simp only [alistSet, hk, if_pos, List.mem_cons] at hx
        rcases hx with h1 | h2
        · right; exact h1
        · left; exact List.mem_cons_of_mem _ h2
      · simp only [alistSet, hk, if_neg, ite_false, List.mem_cons] at hx
        rcases hx with h1 | h2
        · left; rw [h1]; exact List.mem_cons_self _ _
        · rcases ih h2 with h3 | h4
          · left; exact List.mem_cons_of_mem _ h3
          · right; exact h4

theorem updateOnePlayer_points_nonneg (special : List MatchResult)
    (pid : Nat) (w : Bool) (sc : Nat) (rk : List (Nat × PlayerRanking))
    (h : ∀ x ∈ rk, 0 ≤ (x.2).points) :
    ∀ x ∈ updateOnePlayer special pid w sc rk, 0 ≤ (x.2).points := by
  intro x hx
  unfold updateOnePlayer at hx
  cases hc : alistGet pid rk with
  | none =>
      rw [hc] at hx
      exact h x hx
  | some r0 =>
      rw [hc] at hx
      rcases mem_alistSet _ _ _ _ hx with hm | he
      · exact h x hm
      · rw [he]
        exact le_max_left 0 _

theorem updatePairStats_points_nonneg (special : List MatchResult)
    (p1 p2 : Nat) (w : Bool) (sc : Nat) (rk : List (Nat × PlayerRanking))
    (h : ∀ x ∈ rk, 0 ≤ (x.2).points) :
    ∀ x ∈ updatePairStats special p1 p2 w sc rk, 0 ≤ (x.2).points :=
  updateOnePlayer_points_nonneg special p2 w sc _
    (updateOnePlayer_points_nonneg special p1 w sc rk h)

theorem processResult_points_nonneg (special : List MatchResult)
    (rk : List (Nat × PlayerRanking)) (res : MatchResult)
    (h : ∀ x ∈ rk, 0 ≤ (x.2).points) :
    ∀ x ∈ processResult special rk res, 0 ≤ (x.2).points := by
  unfold processResult
  by_cases hc : res.completed
  · simp only [hc, Bool.not_true, Bool.false_eq_true, if_false]
    cases res.winner
    · exact updatePairStats_points_nonneg _ _ _ _ _ _
        (updatePairStats_points_nonneg _ _ _ _ _ _ h)
    · exact updatePairStats_points_nonneg _ _ _ _ _ _
        (updatePairStats_points_nonneg _ _ _ _ _ _ h)
  · simp only [Bool.not_eq_true] at hc
    simp only [hc, Bool.not_false, if_true]
    exact h

theorem initRankings_points_nonneg (players : List Player) :
    ∀ x ∈ initRankings players, 0 ≤ (x.2).points := by
  unfold initRankings
  generalize ha : ([] : List (Nat × PlayerRanking)) = acc
  have hacc : ∀ x ∈ acc, 0 ≤ (x.2).points := by
    rw [← ha]; intro x hx; cases hx
  clear ha
  induction players generalizing acc with
  | nil => exact hacc
  | cons p rest ih =>
      refine ih _ ?_
      intro x hx
      rcases mem_alistSet _ _ _ _ hx with hm | he
      · exact hacc x hm
      · rw [he]

/-- C8: every ranking row produced by the recomputation has a
nonnegative point total — the running total is clamped at zero after
each per-player update and starts at zero. -/
theorem c8_points_nonneg (players : List Player)
    (results : List MatchResult) (e : Nat × PlayerRanking)
    (he : e ∈ calcRankings players results) : 0 ≤ (e.2).points := by
  unfold calcRankings at he
  generalize hsp : specialScoreResults results = special at he
  have h :
      ∀ (l : List MatchResult) (acc : List (Nat × PlayerRanking)),
        (∀ x ∈ acc, 0 ≤ (x.2).points) →
        ∀ x ∈ l.foldl (processResult special) acc, 0 ≤ (x.2).points := by
    intro l
    induction l with
    | nil => intro acc hacc x hx; exact hacc x hx
    | cons r rest ih =>
        intro acc hacc x hx
        exact ih _ (processResult_points_nonneg special acc r hacc) x hx
  exact h results _ (initRankings_points_nonneg players) e he

/-- Witness for C8 at a concrete recomputation. -/
theorem c8_points_nonneg_witness :
    0 ≤ (((1 : Nat),
        ({ playerId := 1, playerName := "P1", gamesPlayed := 1,
           gamesWon := 1, setsPlayed := 1, setsWon := 1, points := 5 } :
          PlayerRanking)).2).points :=
  c8_points_nonneg rosterFour [resBlowoutWin] _ (by decide)

/-- C7: each of the three pairing-generation preconditions produces a
validation failure whose message cites the violated rule (fewer than 4
players, player count not a multiple of 4, fewer available courts than
`playerCount / 4`), and the store is returned unchanged — the handler
returns before its `calculateRankings()` call, the only mutation on
this path. -/
theorem c7_validation_failures (s : StorageState)
    (selectedCourtIds : List Nat) (sets : Nat) (gameDate : Option String)
    (today : String) :
    ((eligiblePlayers s).length < 4 →
      routeGeneratePairings s selectedCourtIds sets gameDate today =
        (Except.error msgInsufficientPlayers, s)) ∧
    (4 ≤ (eligiblePlayers s).length → (eligiblePlayers s).length % 4 ≠ 0 →
      routeGeneratePairings s selectedCourtIds sets gameDate today =
        (Except.error (msgNotMultipleOf4 (eligiblePlayers s).length), s)) ∧
    (4 ≤ (eligiblePlayers s).length → (eligiblePlayers s).length % 4 = 0 →
      (availableCourtsOf s selectedCourtIds).length <
        (eligiblePlayers s).length / 4 →
      routeGeneratePairings s selectedCourtIds sets gameDate today =
        (Except.error
          (msgInsufficientCourts
            (availableCourtsOf s selectedCourtIds).length
            (eligiblePlayers s).length ((eligiblePlayers s).length / 4)),
          s)) := by
  refine ⟨?_, ?_, ?_⟩
  · intro h
    simp only [routeGeneratePairings, generatePairings, if_pos h]
  · intro h4 hm
    have hn : ¬(eligiblePlayers s).length < 4 := by omega
    simp only [routeGeneratePairings, generatePairings, if_neg hn,
      if_pos hm]
  · intro h4 hm hc
    have hn : ¬(eligiblePlayers s).length < 4 := by omega
    have hm' : ¬(eligiblePlayers s).length % 4 ≠ 0 := by omega
    simp only [routeGeneratePairings, generatePairings, if_neg hn,
      if_neg hm', if_pos hc]

/-- Witness for C7: 3 players, then 5 players, then 4 players with no
courts. -/
theorem c7_validation_failures_witness :
    routeGeneratePairings storeThreePlayers [] 1 none "2026-01-10" =
      (Except.error msgInsufficientPlayers, storeThreePlayers) ∧
    routeGeneratePairings storeFivePlayers [] 1 none "2026-01-10" =
      (Except.error (msgNotMultipleOf4 5), storeFivePlayers) ∧
    routeGeneratePairings storeFourPlayersNoCourts [] 1 none "2026-01-10" =
      (Except.error (msgInsufficientCourts 0 4 1),
        storeFourPlayersNoCourts) :=
  ⟨(c7_validation_failures storeThreePlayers [] 1 none "2026-01-10").1
      (by decide),
   (c7_validation_failures storeFivePlayers [] 1 none "2026-01-10").2.1
      (by decide) (by decide),
   (c7_validation_failures storeFourPlayersNoCourts [] 1 none
        "2026-01-10").2.2
      (by decide) (by decide) (by decide)⟩

/-- C10: after `saveMatchResult` (and after every successful
`updateMatchResult`) the stored rankings map equals a full
recomputation over the store's roster and complete result history, and
the written record carries the id of the map entry it occupies. -/
theorem c10_result_write_recomputes_rankings (s : StorageState)
    (result : MatchResult) (id : Nat) (patch : MatchResultPatch) :
    ((saveMatchResult result s).2.playerRankings =
        calcRankings (saveMatchResult result s).2.players
          ((saveMatchResult result s).2.matchResults.map (fun e => e.2)) ∧
      (saveMatchResult result s).1.id = s.resultIdCounter ∧
      alistGet s.resultIdCounter (saveMatchResult result s).2.matchResults =
        some (saveMatchResult result s).1) ∧
    (∀ r s', updateMatchResult id patch s = (some r, s') →
      s'.playerRankings =
          calcRankings s'.players (s'.matchResults.map (fun e => e.2)) ∧
        r.id = id ∧ alistGet id s'.matchResults = some r) := by
  constructor
  · exact ⟨rfl, rfl, alistGet_alistSet_self _ _ _⟩
  · intro r s' h
    unfold updateMatchResult at h
    cases hc : alistGet id s.matchResults with
    | none =>
        rw [hc] at h
        simp at h
    | some e =>
        rw [hc] at h
        obtain ⟨h1, h2⟩ := Prod.mk.injEq .. ▸ h
        obtain rfl : r = applyPatch e patch id := by
          exact (Option.some.injEq .. ▸ h1).symm
        subst h2
        exact ⟨rfl, rfl, alistGet_alistSet_self _ _ _⟩

/-- Witness for C10 at a concrete store, saved result and patch. -/
theorem c10_result_write_witness :
    ((saveMatchResult resBlowoutWin storeOneResult).2.playerRankings =
        calcRankings (saveMatchResult resBlowoutWin storeOneResult).2.players
          ((saveMatchResult resBlowoutWin storeOneResult).2.matchResults.map
            (fun e => e.2))) ∧
    ((updateMatchResult 1 patchComplete storeOneResult).2.playerRankings =
        calcRankings
          (updateMatchResult 1 patchComplete storeOneResult).2.players
          ((updateMatchResult 1 patchComplete
              storeOneResult).2.matchResults.map (fun e => e.2)) ∧
      (applyPatch resPlainWin patchComplete 1).id = 1 ∧
      alistGet 1
          (updateMatchResult 1 patchComplete storeOneResult).2.matchResults =
        some (applyPatch resPlainWin patchComplete 1)) := by
  have h :=
    c10_result_write_recomputes_rankings storeOneResult resBlowoutWin 1
      patchComplete
  refine ⟨h.1.1, ?_⟩
  have h2 :=
    h.2 (applyPatch resPlainWin patchComplete 1)
      (updateMatchResult 1 patchComplete storeOneResult).2 (by decide)
  exact ⟨h2.1, h2.2.1, h2.2.2⟩

theorem insertDescBy_perm (key : α → Int) (a : α) (l : List α) :
    insertDescBy key a l ~ a :: l := by
  induction l with
  | nil => exact List.Perm.refl _
  | cons x xs ih =>
      unfold insertDescBy
      by_cases h : key a < key x
      · rw [if_pos h]
        exact (ih.cons x).trans (List.Perm.swap a x xs)
      · rw [if_neg h]

theorem sortDescBy_perm (key : α → Int) (l : List α) :
    sortDescBy key l ~ l := by
  induction l with
  | nil => exact List.Perm.refl _
  | cons x xs ih =>
      show insertDescBy key x (sortDescBy key xs) ~ x :: xs
      exact (insertDescBy_perm key x _).trans (ih.cons x)

theorem sortDescBy_length (key : α → Int) (l : List α) :
    (sortDescBy key l).length = l.length :=
  (sortDescBy_perm key l).length_eq

theorem snakePairs_cons_append (a b : α) (l : List α) :
    snakePairs (a :: (l ++ [b])) = (a, b) :: snakePairs l := by
  have hrev : (a :: (l ++ [b])).reverse = b :: (l.reverse ++ [a]) := by
    simp
  have hz : (l ++ [b]).zip (l.reverse ++ [a]) =
      l.zip l.reverse ++ [(b, a)] := by
    rw [List.zip_append (by simp)]
    rfl
  have hle : (l.length + 1) / 2 ≤ (l.zip l.reverse).length := by
    rw [List.length_zip, List.length_reverse]
    omega
  calc snakePairs (a :: (l ++ [b]))
      = ((a :: (l ++ [b])).zip (a :: (l ++ [b])).reverse).take
          (((a :: (l ++ [b])).length + 1) / 2) := rfl
    _ = ((a, b) :: (l.zip l.reverse ++ [(b, a)])).take
          ((l.length + 1) / 2 + 1) := by
        rw [hrev, List.zip_cons_cons, hz]
        congr 1
        simp only [List.length_cons, List.length_append,
          List.length_singleton, List.length_nil]
        omega
    _ = (a, b) :: (l.zip l.reverse ++ [(b, a)]).take ((l.length + 1) / 2) :=
        List.take_succ_cons
    _ = (a, b) :: (l.zip l.reverse).take ((l.length + 1) / 2) := by
        rw [List.take_append_of_le_length hle]
    _ = (a, b) :: snakePairs l := rfl

theorem pairElems_cons (q : α × α) (rest : List (α × α)) :
    pairElems (q :: rest) = q.1 :: q.2 :: pairElems rest := by
  simp [pairElems]

theorem pairElems_snakePairs_perm (l : List α) (h : l.length % 2 = 0) :
    pairElems (snakePairs l) ~ l := by
  induction l using List.bidirectionalRecOn with
  | H0 => simp [snakePairs, pairElems]
  | H1 a => simp at h
  | Hn a l b ih =>
      rw [snakePairs_cons_append, pairElems_cons]
      have hl : l.length % 2 = 0 := by
        simp only [List.length_cons, List.length_append,
          List.length_singleton, List.length_nil] at h
        omega
      have h1 : a :: b :: pairElems (snakePairs l) ~ a :: b :: l :=
        ((ih hl).cons b).cons a
      exact h1.trans ((List.perm_append_singleton b l).symm.cons a)

theorem snakePairs_length (l : List α) :
    (snakePairs l).length = (l.length + 1) / 2 := by
  unfold snakePairs
  rw [List.length_take, List.length_zip, List.length_reverse]
  omega

theorem map_snd_zip_take (l₁ : List α) (l₂ : List β) :
    (l₁.zip l₂).map Prod.snd = l₂.take l₁.length := by
  induction l₁ generalizing l₂ with
  | nil => simp
  | cons a as ih =>
      cases l₂ with
      | nil => simp
      | cons b bs => simp [List.zip_cons_cons, ih]

theorem assignCourts_pairs_perm (cs : List Court) (pairs : List Pair)
    (sets : Nat) (gd : String) (hlen : cs.length = pairs.length / 2)
    (he : pairs.length % 2 = 0) :
    (assignCourts cs pairs sets gd).flatMap
        (fun cp => [cp.pair1, cp.pair2]) ~ pairs := by
  unfold assignCourts
  rw [List.flatMap_map]
  have hflat :
      ∀ w : List (Court × (Pair × Pair)),
        w.flatMap (fun x => [x.2.1, x.2.2]) =
          pairElems (w.map Prod.snd) := by
    intro w
    rw [pairElems, List.flatMap_map]
  rw [hflat, List.map_take, map_snd_zip_take, List.take_take, hlen,
    Nat.min_self]
  have harith : pairs.length / 2 = (pairs.length + 1) / 2 := by omega
  rw [harith]
  exact pairElems_snakePairs_perm pairs he

theorem pairingsPlayers_eq_flat (ps : List CourtPairing) :
    pairingsPlayers ps =
      (ps.flatMap (fun cp => [cp.pair1, cp.pair2])).flatMap pairPlayers := by
  induction ps with
  | nil => rfl
  | cons cp rest ih =>
      simp [pairingsPlayers, courtPairingPlayers, pairPlayers,
        List.flatMap_cons] at *
      exact ih

theorem allocateCore_players_perm (players : List Player) (cs : List Court)
    (rankings : List PlayerRanking) (sets : Nat) (gd : String)
    (hm : players.length % 4 = 0) (hcs : cs.length = players.length / 4) :
    pairingsPlayers (allocateCore players cs rankings sets gd) ~ players := by
  have hsortedp :
      sortDescBy (fun p => getPlayerRankingPoints rankings p.id) players ~
        players := sortDescBy_perm _ _
  have hN :
      (sortDescBy (fun p => getPlayerRankingPoints rankings p.id)
          players).length = players.length := hsortedp.length_eq
  have hSPp :
      sortDescBy
          (fun pr =>
            getPlayerRankingPoints rankings pr.player1.id +
              getPlayerRankingPoints rankings pr.player2.id)
          (balancedPairs
            (sortDescBy (fun p => getPlayerRankingPoints rankings p.id)
              players)) ~
        balancedPairs
          (sortDescBy (fun p => getPlayerRankingPoints rankings p.id)
            players) := sortDescBy_perm _ _
  have hSPlen :
      (sortDescBy
          (fun pr =>
            getPlayerRankingPoints rankings pr.player1.id +
              getPlayerRankingPoints rankings pr.player2.id)
          (balancedPairs
            (sortDescBy (fun p => getPlayerRankingPoints rankings p.id)
              players))).length = players.length / 2 := by
    rw [hSPp.length_eq]
    unfold balancedPairs
    rw [List.length_map, snakePairs_length, hN]
    omega
  have hasg :=
    assignCourts_pairs_perm cs
      (sortDescBy
        (fun pr =>
          getPlayerRankingPoints rankings pr.player1.id +
            getPlayerRankingPoints rankings pr.player2.id)
        (balancedPairs
          (sortDescBy (fun p => getPlayerRankingPoints rankings p.id)
            players)))
      sets gd (by rw [hSPlen, hcs]; omega) (by rw [hSPlen]; omega)
  show pairingsPlayers (assignCourts cs _ sets gd) ~ players
  calc pairingsPlayers (assignCourts cs _ sets gd)
      = ((assignCourts cs _ sets gd).flatMap
            (fun cp => [cp.pair1, cp.pair2])).flatMap pairPlayers :=
        pairingsPlayers_eq_flat _
    _ ~ (sortDescBy
            (fun pr =>
              getPlayerRankingPoints rankings pr.player1.id +
                getPlayerRankingPoints rankings pr.player2.id)
            (balancedPairs
              (sortDescBy (fun p => getPlayerRankingPoints rankings p.id)
                players))).flatMap pairPlayers :=
        List.Perm.flatMap_right pairPlayers hasg
    _ ~ (balancedPairs
            (sortDescBy (fun p => getPlayerRankingPoints rankings p.id)
              players)).flatMap pairPlayers :=
        List.Perm.flatMap_right pairPlayers hSPp
    _ = pairElems
          (snakePairs
            (sortDescBy (fun p => getPlayerRankingPoints rankings p.id)
              players)) := by
        unfold balancedPairs pairElems
        rw [List.flatMap_map]
        rfl
    _ ~ sortDescBy (fun p => getPlayerRankingPoints rankings p.id)
          players :=
        pairElems_snakePairs_perm _ (by rw [hN]; omega)
    _ ~ players := hsortedp

theorem generatePairings_ok (players : List Player) (courts : List Court)
    (rankings : List PlayerRanking) (sets : Nat) (gd : Option String)
    (today : String) (h4 : 4 ≤ players.length)
    (hm : players.length % 4 = 0)
    (hc : players.length / 4 ≤ courts.length) :
    generatePairings players courts rankings sets gd today =
      Except.ok
        (allocateCore players (courts.take (players.length / 4)) rankings
          sets (gd.getD today)) := by
  have h1 : ¬players.length < 4 := by omega
  have h2 : ¬players.length % 4 ≠ 0 := by omega
  have h3 : ¬courts.length < players.length / 4 := by omega
  simp only [generatePairings, if_neg h1, if_neg h2, if_neg h3]

theorem snakePairs_getElem? (l : List α) (i : Nat) (h : i < l.length / 2) :
    ∃ a b, l[i]? = some a ∧ l[l.length - 1 - i]? = some b ∧
      (snakePairs l)[i]? = some (a, b) := by
  have hiN : i < l.length := by omega
  have htake : i < (l.length + 1) / 2 := by omega
  refine ⟨l.get ⟨i, hiN⟩, l.get ⟨l.length - 1 - i, by omega⟩, ?_, ?_, ?_⟩
  · exact List.getElem?_eq_getElem hiN
  · exact List.getElem?_eq_getElem (by omega)
  · unfold snakePairs
    rw [List.getElem?_take_of_lt htake, List.getElem?_zip_eq_some]
    refine ⟨List.getElem?_eq_getElem hiN, ?_⟩
    rw [List.getElem?_reverse (by simpa using hiN)]
    exact List.getElem?_eq_getElem (by omega)

/-- C4: for every valid input (pairwise-distinct players, player count a
multiple of 4 and at least 4, enough courts), the ranked generation
succeeds and its court pairings contain every eligible player exactly
once — the flattened participants are a permutation of the eligible
players, are duplicate-free, and each eligible player occurs with
count 1. -/
theorem c4_pairings_cover_players_exactly_once (players : List Player)
    (courts : List Court) (rankings : List PlayerRanking) (sets : Nat)
    (gd : Option String) (today : String) (hnd : players.Nodup)
    (h4 : 4 ≤ players.length) (hm : players.length % 4 = 0)
    (hc : players.length / 4 ≤ courts.length) :
    ∃ pairings,
      generatePairings players courts rankings sets gd today =
          Except.ok pairings ∧
        pairingsPlayers pairings ~ players ∧
        (pairingsPlayers pairings).Nodup ∧
        ∀ p ∈ players, (pairingsPlayers pairings).count p = 1 := by
  have hperm :
      pairingsPlayers
          (allocateCore players (courts.take (players.length / 4)) rankings
            sets (gd.getD today)) ~ players :=
    allocateCore_players_perm players _ rankings sets _ hm
      (by rw [List.length_take]; omega)
  refine ⟨_, generatePairings_ok players courts rankings sets gd today h4
    hm hc, hperm, hperm.nodup_iff.mpr hnd, ?_⟩
  intro p hp
  rw [hperm.count_eq]
  exact List.count_eq_one_of_mem hnd hp

/-- Witness for C4 at the eight-player fixture. -/
theorem c4_pairings_cover_witness :
    ∃ pairings,
      generatePairings rosterEight courtsTwo rankingsEight 1
          (some "2026-01-10") "2026-01-10" = Except.ok pairings ∧
        pairingsPlayers pairings ~ rosterEight ∧
        (pairingsPlayers pairings).Nodup ∧
        ∀ p ∈ rosterEight, (pairingsPlayers pairings).count p = 1 :=
  c4_pairings_cover_players_exactly_once rosterEight courtsTwo
    rankingsEight 1 (some "2026-01-10") "2026-01-10" (by decide)
    (by decide) (by decide) (by decide)

/-- C5: in ranked mode the generated pairs are exactly
`(sorted[i], sorted[N-1-i])` for `i < N/2` (players sorted by descending
resolved points, missing ranking rows resolving to 0), and, on valid
distinct input, the four participants of every produced court pairing
are pairwise distinct. -/
theorem c5_snake_seeding (players : List Player) (courts : List Court)
    (rankings : List PlayerRanking) (sets : Nat) (gd : Option String)
    (today : String) (hnd : players.Nodup) (h4 : 4 ≤ players.length)
    (hm : players.length % 4 = 0)
    (hc : players.length / 4 ≤ courts.length) :
    (∀ i, i < players.length / 2 →
      ∃ a b,
        (sortDescBy (fun p => getPlayerRankingPoints rankings p.id)
            players)[i]? = some a ∧
        (sortDescBy (fun p => getPlayerRankingPoints rankings p.id)
            players)[players.length - 1 - i]? = some b ∧
        (balancedPairs
            (sortDescBy (fun p => getPlayerRankingPoints rankings p.id)
              players))[i]? = some ⟨a, b⟩) ∧
    (∀ pairings,
      generatePairings players courts rankings sets gd today =
        Except.ok pairings →
      ∀ cp ∈ pairings, (courtPairingPlayers cp).Nodup) := by
  constructor
  · intro i hi
    have hN :
        (sortDescBy (fun p => getPlayerRankingPoints rankings p.id)
            players).length = players.length := sortDescBy_length _ _
    obtain ⟨a, b, h1, h2, h3⟩ :=
      snakePairs_getElem?
        (sortDescBy (fun p => getPlayerRankingPoints rankings p.id)
          players) i (by omega)
    rw [hN] at h2
    refine ⟨a, b, h1, h2, ?_⟩
    unfold balancedPairs
    rw [List.getElem?_map, h3]
    rfl
  · intro pairings hok cp hcp
    rw [generatePairings_ok players courts rankings sets gd today h4 hm
      hc] at hok
    injection hok with hok
    subst hok
    have hperm :
        pairingsPlayers
            (allocateCore players (courts.take (players.length / 4))
              rankings sets (gd.getD today)) ~ players :=
      allocateCore_players_perm players _ rankings sets _ hm
        (by rw [List.length_take]; omega)
    have hnodup := hperm.nodup_iff.mpr hnd
    have hsub :
        courtPairingPlayers cp <+
          pairingsPlayers
            (allocateCore players (courts.take (players.length / 4))
              rankings sets (gd.getD today)) := by
      unfold pairingsPlayers
      rw [List.flatMap_def]
      exact List.sublist_flatten_of_mem
        (List.mem_map_of_mem courtPairingPlayers hcp)
    exact hsub.nodup hnodup

/-- Witness for C5: the top seed partners the bottom seed at the
eight-player fixture. -/
theorem c5_snake_seeding_witness :
    ∃ a b,
      (sortDescBy (fun p => getPlayerRankingPoints rankingsEight p.id)
          rosterEight)[0]? = some a ∧
      (sortDescBy (fun p => getPlayerRankingPoints rankingsEight p.id)
          rosterEight)[rosterEight.length - 1 - 0]? = some b ∧
      (balancedPairs
          (sortDescBy (fun p => getPlayerRankingPoints rankingsEight p.id)
            rosterEight))[0]? = some ⟨a, b⟩ := by
  have h :=
    c5_snake_seeding rosterEight courtsTwo rankingsEight 1
      (some "2026-01-10") "2026-01-10" (by decide) (by decide) (by decide)
      (by decide)
  exact h.1 0 (by decide)

/-- Witness for C9 at concrete scores. -/
theorem c9_winner_derivation_witness :
    handleScoreChange 6 4 Winner.pair2 = Winner.pair1 ∧
    handleScoreChange 4 6 Winner.pair1 = Winner.pair2 ∧
    handleScoreChange 3 3 defaultWinner = Winner.pair1 :=
  ⟨(c9_winner_derivation 6 4 Winner.pair2).1 (by decide),
   (c9_winner_derivation 4 6 Winner.pair1).2.1 (by decide),
   (c9_winner_derivation 3 3 Winner.pair1).2.2⟩

end SportMatchMaker
